import Mathlib

/-!
Verification of the MissionCommander messaging core against its
natural-language specification.

The development shallowly embeds the wire codec
(`missioncommander/connection.py`), the connection handler send loop, the
client state machine (`missioncommander/client.py`) and the server
negotiation/directory logic (`missioncommander/server.py`).

Strings on the wire are modelled as `List Char`; byte lengths are computed
with `Char.utf8Size`, matching the UTF-8 encoding the code applies before
writing to the socket.  Python floats are outside the embedding: JSON
numbers are modelled as integers.
-/

/-- A JSON scalar value, the payload value type of `Message`
(`Dict[str, Union[str,int,float,bool]]` in `connection.py`, with floats
outside the embedding). -/
inductive JValue where
  | str : String → JValue
  | int : Int → JValue
  | bool : Bool → JValue
deriving DecidableEq, Repr

/-- A message: `Message.__init__(subject, payload)` in `connection.py`.
The payload is a JSON object modelled as an insertion-ordered association
list, matching a Python `dict`. -/
structure Message where
  subject : String
  payload : List (String × JValue)
deriving DecidableEq, Repr

/-- UTF-8 byte length of a character sequence (the length of the UTF-8
encoding of the corresponding Python string). -/
def utf8Len (l : List Char) : Nat := (l.map Char.utf8Size).sum

/-- Lowercase hexadecimal digit, as emitted by Python `json.dumps` in
`\u00XX` escapes. -/
def hexDigitChar (n : Nat) : Char :=
  if n < 10 then Char.ofNat (48 + n) else Char.ofNat (87 + n)

/-- Decimal digit character. -/
def digitChar (n : Nat) : Char := Char.ofNat (48 + n)

/-- Modelled from the spec: the escaping `json.dumps` applies to one
character of a string value (the `json` module lives outside the
repository).  The quote and backslash get two-character escapes, the five
short control escapes are emitted for `\b \t \n \f \r`, all other control
characters become `\u00XX`; every other character is emitted literally. -/
def escChar (c : Char) : List Char :=
  if c = '"' then ['\\', '"']
  else if c = '\\' then ['\\', '\\']
  else if c = '\x08' then ['\\', 'b']
  else if c = '\x09' then ['\\', 't']
  else if c = '\x0a' then ['\\', 'n']
  else if c = '\x0c' then ['\\', 'f']
  else if c = '\x0d' then ['\\', 'r']
  else if c.toNat < 32 then
    ['\\', 'u', '0', '0', hexDigitChar (c.toNat / 16), hexDigitChar (c.toNat % 16)]
  else [c]

/-- Escape a whole character sequence. -/
def escList : List Char → List Char
  | [] => []
  | c :: cs => escChar c ++ escList cs

/-- A JSON string literal: quote, escaped content, quote. -/
def dumpString (s : String) : List Char :=
  '"' :: (escList s.data ++ ['"'])

/-- Decimal digits of a natural number, most significant first, with a
fuel parameter so that the definition is structural (and hence evaluates
in the kernel). -/
def natDigitsAux : Nat → Nat → List Char
  | 0, _ => []
  | fuel + 1, n =>
    if n < 10 then [digitChar n]
    else natDigitsAux fuel (n / 10) ++ [digitChar (n % 10)]

/-- Decimal representation of a natural number. -/
def natDigits (n : Nat) : List Char := natDigitsAux (n + 1) n

/-- Decimal representation of an integer, as `repr` of a Python `int`. -/
def intRepr : Int → List Char
  | Int.ofNat n => natDigits n
  | Int.negSucc m => '-' :: natDigits (m + 1)

/-- Modelled from the spec: `json.dumps` of one scalar value. -/
def dumpValue : JValue → List Char
  | JValue.str s => dumpString s
  | JValue.int n => intRepr n
  | JValue.bool true => ['t', 'r', 'u', 'e']
  | JValue.bool false => ['f', 'a', 'l', 's', 'e']

/-- Modelled from the spec: the members of a JSON object as `json.dumps`
emits them with the default separators, `", "` between items and `": "`
between key and value. -/
def dumpMembers : List (String × JValue) → List Char
  | [] => []
  | [(k, v)] => dumpString k ++ ':' :: ' ' :: dumpValue v
  | (k, v) :: m :: rest =>
      dumpString k ++ ':' :: ' ' :: dumpValue v ++ ',' :: ' ' :: dumpMembers (m :: rest)

/-- Modelled from the spec: `json.dumps(obj, indent=None)` for an object,
as used by `Message.serialize` and the header build in
`ConnectionHandler.__send_queue_tick`.  Non-ASCII characters are emitted
literally and then UTF-8 encoded. -/
def jsonDumpsObj (obj : List (String × JValue)) : List Char :=
  '{' :: (dumpMembers obj ++ ['}'])

/-- Model of `Message.serialize`: the UTF-8 JSON encoding of the payload —
`json.dumps(self.payload, indent=None)`, UTF-8 encoded. -/
def Message.serialize (m : Message) : List Char := jsonDumpsObj m.payload

/-- Value of one hexadecimal digit character, if any. -/
def hexVal (c : Char) : Option Nat :=
  if 48 ≤ c.toNat ∧ c.toNat ≤ 57 then some (c.toNat - 48)
  else if 97 ≤ c.toNat ∧ c.toNat ≤ 102 then some (c.toNat - 87)
  else if 65 ≤ c.toNat ∧ c.toNat ≤ 70 then some (c.toNat - 55)
  else none

/-- The single-character JSON escapes accepted by `json.loads`. -/
def unescSimple (c : Char) : Option Char :=
  if c = '"' then some '"'
  else if c = '\\' then some '\\'
  else if c = '/' then some '/'
  else if c = 'b' then some '\x08'
  else if c = 't' then some '\x09'
  else if c = 'n' then some '\x0a'
  else if c = 'f' then some '\x0c'
  else if c = 'r' then some '\x0d'
  else none

/-- A `\uXXXX` escape tail: four hexadecimal digits.  Surrogate code
points are rejected (the embedding has no lone surrogates; the codec
never emits surrogate escapes). -/
def unescHex : List Char → Option (Char × List Char)
  | h1 :: h2 :: h3 :: h4 :: cs =>
    match hexVal h1, hexVal h2, hexVal h3, hexVal h4 with
    | some a, some b, some d, some e =>
      let n := ((a * 16 + b) * 16 + d) * 16 + e
      if 0xd800 ≤ n ∧ n < 0xe000 then none else some (Char.ofNat n, cs)
    | _, _, _, _ => none
  | _ => none

/-- One escape sequence after the backslash. -/
def unescUnit : List Char → Option (Char × List Char)
  | [] => none
  | e :: cs => if e = 'u' then unescHex cs else (unescSimple e).map (fun d => (d, cs))

/-- Modelled from the spec: the body of a JSON string literal as parsed
by `json.loads` (strict mode), after the opening quote, with fuel making
the recursion structural.  Returns the decoded characters and the
remaining input after the closing quote; raw control characters are
rejected. -/
def parseStringBodyF : Nat → List Char → Option (List Char × List Char)
  | 0, _ => none
  | _ + 1, [] => none
  | fuel + 1, c :: cs =>
    if c = '"' then some ([], cs)
    else if c = '\\' then
      match unescUnit cs with
      | some (d, cs2) =>
        match parseStringBodyF fuel cs2 with
        | some (s, r) => some (d :: s, r)
        | none => none
      | none => none
    else if c.toNat < 32 then none
    else
      match parseStringBodyF fuel cs with
      | some (s, r) => some (c :: s, r)
      | none => none

/-- String literal body with sufficient fuel: each recursion step
consumes at least one input character. -/
def parseStringBody (l : List Char) : Option (List Char × List Char) :=
  parseStringBodyF (l.length + 1) l

/-- JSON whitespace skipping (`json.loads` skips space, tab, newline and
carriage return). -/
def skipWs : List Char → List Char
  | [] => []
  | c :: cs =>
    if c = ' ' ∨ c = '\x09' ∨ c = '\x0a' ∨ c = '\x0d' then skipWs cs else c :: cs

/-- Greedily consume decimal digits, accumulating their value. -/
def parseDigits : List Char → Nat → Nat × List Char
  | [], acc => (acc, [])
  | c :: cs, acc =>
    if c.isDigit then parseDigits cs (acc * 10 + (c.toNat - 48)) else (acc, c :: cs)

/-- A nonempty run of decimal digits. -/
def parseDigits1 : List Char → Option (Nat × List Char)
  | [] => none
  | c :: cs => if c.isDigit then some (parseDigits (c :: cs) 0) else none

/-- Expect the given literal characters at the head of the input. -/
def expectLit : List Char → List Char → Option (List Char)
  | [], l => some l
  | _ :: _, [] => none
  | c :: cs, d :: l => if d = c then expectLit cs l else none

/-- Modelled from the spec: one JSON scalar value as parsed by
`json.loads`, restricted to the string/integer/boolean fragment the
payload type covers (floats are outside the embedding). -/
def parseScalar : List Char → Option (JValue × List Char)
  | [] => none
  | c :: cs =>
    if c = '"' then
      match parseStringBody cs with
      | some (s, r) => some (JValue.str (String.mk s), r)
      | none => none
    else if c = '-' then
      match parseDigits1 cs with
      | some (n, r) => some (JValue.int (-(n : Int)), r)
      | none => none
    else if c.isDigit then
      match parseDigits1 (c :: cs) with
      | some (n, r) => some (JValue.int (n : Int), r)
      | none => none
    else if c = 't' then
      match expectLit ['r', 'u', 'e'] cs with
      | some r => some (JValue.bool true, r)
      | none => none
    else if c = 'f' then
      match expectLit ['a', 'l', 's', 'e'] cs with
      | some r => some (JValue.bool false, r)
      | none => none
    else none

/-- Modelled from the spec: the member list of a JSON object
(`json.loads`), positioned at the first character of a key.  The fuel
bounds the number of members so the definition is structural; callers
supply fuel no smaller than the member count. -/
def parseMembersRest : Nat → List Char → Option (List (String × JValue) × List Char)
  | 0, _ => none
  | _ + 1, [] => none
  | fuel + 1, c :: cs =>
    if c = '"' then
      match parseStringBody cs with
      | none => none
      | some (key, r1) =>
        match skipWs r1 with
        | ':' :: r2 =>
          match parseScalar (skipWs r2) with
          | none => none
          | some (v, r3) =>
            match skipWs r3 with
            | ',' :: r4 =>
              match parseMembersRest fuel (skipWs r4) with
              | some (rest, r5) => some ((String.mk key, v) :: rest, r5)
              | none => none
            | '}' :: r4 => some ([(String.mk key, v)], r4)
            | _ => none
        | _ => none
    else none

/-- Modelled from the spec: a JSON object as parsed by `json.loads`. -/
def parseObject (fuel : Nat) (l : List Char) : Option (List (String × JValue) × List Char) :=
  match skipWs l with
  | '{' :: r =>
    match skipWs r with
    | '}' :: r2 => some ([], r2)
    | r2 => parseMembersRest fuel r2
  | _ => none

/-- Modelled from the spec: `json.loads` of a complete input that must be
a JSON object (the payload type of the data model); trailing data other
than whitespace is an error, as in Python. -/
def jsonLoadsObj (l : List Char) : Option (List (String × JValue)) :=
  match parseObject (l.length + 1) l with
  | some (obj, r) => if skipWs r = [] then some obj else none
  | none => none

/-- Lookup in a JSON object with the last binding winning, matching how
Python builds a `dict` from parsed members and then subscripts it. -/
def lookupLast (k : String) : List (String × JValue) → Option JValue
  | [] => none
  | (k2, v) :: rest =>
    match lookupLast k rest with
    | some r => some r
    | none => if k2 = k then some v else none

/-- Model of `Message.deserialize(subject, bytes)`: `json.loads` of the body
(the data model requires the payload to be a mapping). -/
def Message.deserialize (subject : String) (body : List Char) : Option Message :=
  match jsonLoadsObj body with
  | some obj => some ⟨subject, obj⟩
  | none => none

/-- The next input character, if any, is not a decimal digit: a number
token ends here. -/
def digitBoundary : List Char → Bool
  | [] => true
  | c :: _ => !c.isDigit

/-- The header JSON built by `ConnectionHandler.__send_queue_tick`:
`json.dumps` of the dict mapping `length` to the body byte count and
`subject` to the message subject, in that insertion order. -/
def headerJson (bodyLen : Nat) (subj : String) : List Char :=
  jsonDumpsObj [("length", JValue.int bodyLen), ("subject", JValue.str subj)]

/-- The constant `HEADER_LEN_BYTES` in `connection.py`. -/
def HEADER_LEN_BYTES : Nat := 64

/-- Header build in `ConnectionHandler.__send_queue_tick`: UTF-8 encode the
header JSON, raise `OverflowError` (modelled as `none`) when it is longer
than `HEADER_LEN_BYTES`, otherwise pad on the right with null bytes to
exactly `HEADER_LEN_BYTES`. -/
def encodeHeader (bodyLen : Nat) (subj : String) : Option (List Char) :=
  if HEADER_LEN_BYTES < utf8Len (headerJson bodyLen subj) then none
  else some (headerJson bodyLen subj
    ++ List.replicate (HEADER_LEN_BYTES - utf8Len (headerJson bodyLen subj)) '\x00')

/-- The `header.replace` call in `ConnectionHandler.__recv_queue_tick`
that replaces the null byte by the empty string: it removes every null
byte, wherever it occurs. -/
def removeNulls (l : List Char) : List Char := l.filter (fun c => c ≠ '\x00')

/-- Header parse in `ConnectionHandler.__recv_queue_tick`: null bytes are
removed, the remainder is parsed as JSON, and the `length` and `subject`
entries are read; any failure is the malformed-header path (`none`). -/
def decodeHeader (block : List Char) : Option (JValue × JValue) :=
  match jsonLoadsObj (removeNulls block) with
  | none => none
  | some obj =>
    match lookupLast "length" obj, lookupLast "subject" obj with
    | some len, some subj => some (len, subj)
    | _, _ => none

/-- Strip only a trailing run of null bytes. -/
def removeTrailingNulls (l : List Char) : List Char :=
  (List.dropWhile (fun c => c = '\x00') l.reverse).reverse

/-- Modelled from the spec: the header decode as §4.1 words it
(`strips trailing null bytes, parses JSON`) — removing exactly the
trailing null padding before the parse.  Stated for comparison with
`decodeHeader`, which is translated from the code. -/
def decodeHeaderSpec (block : List Char) : Option (JValue × JValue) :=
  match jsonLoadsObj (removeTrailingNulls block) with
  | none => none
  | some obj =>
    match lookupLast "length" obj, lookupLast "subject" obj with
    | some len, some subj => some (len, subj)
    | _, _ => none

/-- The whole encode step of `__send_queue_tick` for one message:
serialize the body, build and pad the header. -/
def encodeFrame (m : Message) : Option (List Char × List Char) :=
  match encodeHeader (utf8Len (Message.serialize m)) m.subject with
  | some hdr => some (hdr, Message.serialize m)
  | none => none

/-- The decode side of `__recv_queue_tick` for one frame: decode the
header, check the body has exactly `length` bytes (the loop reads exactly
that many), and deserialize the body. -/
def decodeFrame (hdr body : List Char) : Option Message :=
  match decodeHeader hdr with
  | some (JValue.int len, JValue.str subj) =>
    if (utf8Len body : Int) = len then Message.deserialize subj body else none
  | _ => none

/-- State of one `ConnectionHandler` send side: the outbound queue
(`__outbound_message_queue`, head = next to send), the remaining socket
send quota (each entry is the return value cap of one `socket.send`
call), and the messages fully written to the wire so far. -/
structure SendState where
  queue : List Message
  oracle : List Nat
  wire : List Message

/-- The `while total < len(...)` write loop of `__send_queue_tick`: each
`socket.send` call sends at most the next oracle entry (clamped to the
remaining bytes); a zero-byte send fails the loop. -/
def sendLoop : Nat → Nat → List Nat → Bool × List Nat
  | len, total, oracle =>
    if len ≤ total then (true, oracle)
    else
      match oracle with
      | [] => (false, [])
      | r :: rest =>
        if min r (len - total) = 0 then (false, rest)
        else sendLoop len (total + min r (len - total)) rest

/-- One pass of `ConnectionHandler.__send_queue_tick`: pop one message
from the head of the outbound queue (no-op on an empty queue), encode the
header (`OverflowError` is caught and the message dropped, the tick
reporting success), write the header then the body; a zero-byte write
pushes the message back to the head of the queue and reports failure. -/
def sendQueueTick (st : SendState) : Bool × SendState :=
  match st.queue with
  | [] => (true, st)
  | m :: rest =>
    match encodeHeader (utf8Len (Message.serialize m)) m.subject with
    | none => (true, { st with queue := rest })
    | some hdr =>
      match sendLoop (utf8Len hdr) 0 st.oracle with
      | (false, o1) => (false, { queue := m :: rest, oracle := o1, wire := st.wire })
      | (true, o1) =>
        match sendLoop (utf8Len (Message.serialize m)) 0 o1 with
        | (false, o2) => (false, { queue := m :: rest, oracle := o2, wire := st.wire })
        | (true, o2) => (true, { queue := rest, oracle := o2, wire := st.wire ++ [m] })

/-- Iterated send ticks of `ConnectionHandler.__main_loop`; a failed tick
stops the loop (`self.stop(blocking=False)`). -/
def runSendTicks : Nat → SendState → SendState
  | 0, st => st
  | k + 1, st =>
    match sendQueueTick st with
    | (true, st2) => runSendTicks k st2
    | (false, st2) => st2

/-- Model of `ConnectionHandler.send`: append at the tail of the outbound queue. -/
def ConnectionHandler.send (st : SendState) (m : Message) : SendState :=
  { st with queue := st.queue ++ [m] }

/-- The reconnect backoff sequence of `Client.__reconnect_wrapper`:
`sleeptime` starts at `0.1` and after each failed attempt becomes
`min(sleeptime*2, 15)`.  `reconnectSleeptime n` is the wait used before
attempt `n+1`, i.e. after `n` consecutive failures.  Reals are modelled
as rationals (the Python floats here are exact binary scalings of 0.1,
so the comparison structure is identical). -/
def reconnectSleeptime : Nat → ℚ
  | 0 => 1 / 10
  | n + 1 => min (reconnectSleeptime n * 2) 15

/-- Flag constant of `ClientState` in `client.py`. -/
def STATE_NEEDS_INIT : Nat := 0x0001

def STATE_OK : Nat := 0x0002

def STATE_RUNNING : Nat := 0x0004

def STATE_NOT_CONNECTED : Nat := 0x0008

def STATE_CONNECTING : Nat := 0x0010

def STATE_CONNECTED : Nat := 0x0020

def STATE_CONNECT_FAILED : Nat := 0x0040

def STATE_RECONNECTING : Nat := 0x0080

def STATE_RECONNECT_FAILED : Nat := 0x0100

def STATE_DISCONNECTING : Nat := 0x0200

def STATE_DISCONNECT_FAILED : Nat := 0x0400

def STATE_UNEXP_CLOSED : Nat := 0x0800

/-- Clear a single-bit flag: equals Python `state & ~flag` for a
nonnegative state and a one-bit flag. -/
def clearFlag (s flag : Nat) : Nat := s - (s &&& flag)

/-- The configuration and status fields of `Client` that `connect` and
the property accessors read and write.  `hasConn` models whether
`self.__conn` currently references a `ConnectionHandler`. -/
structure ClientSt where
  clientId : Option String
  address : Option String
  port : Option Nat
  interface : Option String
  bindPort : Option Nat
  state : Nat
  hasConn : Bool
deriving DecidableEq

/-- Model of `Client.__init__`: no fields set, status `needs-init | not-connected`,
no handler. -/
def Client.init : ClientSt :=
  { clientId := none, address := none, port := none, interface := none,
    bindPort := none, state := STATE_NEEDS_INIT ||| STATE_NOT_CONNECTED, hasConn := false }

/-- Model of `Client.__check_inited`: clear `needs-init` once address, port and
client id are all present, set it otherwise. -/
def checkInited (c : ClientSt) : ClientSt :=
  if c.address.isSome && c.port.isSome && c.clientId.isSome then
    { c with state := clearFlag c.state STATE_NEEDS_INIT }
  else
    { c with state := c.state ||| STATE_NEEDS_INIT }

/-- Result of a Python call: normal return or a raised exception. -/
inductive PyResult (α : Type) where
  | ok : α → PyResult α
  | exn : String → PyResult α
deriving DecidableEq

/-- The `address` property setter. -/
def Client.setAddress (c : ClientSt) (a : String) : PyResult ClientSt :=
  if c.state &&& STATE_RUNNING ≠ 0 then .exn "Client must be stopped before setting address"
  else .ok (checkInited { c with address := some a })

/-- The `client_id` property setter. -/
def Client.setClientId (c : ClientSt) (cid : String) : PyResult ClientSt :=
  if c.state &&& STATE_RUNNING ≠ 0 then .exn "Client must be stopped before setting client_id"
  else .ok (checkInited { c with clientId := some cid })

/-- The `port` property setter (with an integer port, `int(port)`
succeeds). -/
def Client.setPort (c : ClientSt) (p : Nat) : PyResult ClientSt :=
  if c.state &&& STATE_RUNNING ≠ 0 then .exn "Client must be stopped before setting port"
  else .ok (checkInited { c with port := some p })

/-- The `client_id` property GETTER of `Client` (client.py lines 131-133):
`return self.__address`. -/
def Client.clientIdProp (c : ClientSt) : Option String := c.address

/-- Outcome of one socket-level operation inside `connect`. -/
inductive SockOutcome where
  | ok
  | timeout
  | refused
  | err
deriving DecidableEq

/-- The socket-level outcomes `connect` encounters at its four
try-blocks: bind, connect, handler start, negotiation send. -/
structure ConnectEnv where
  bindO : SockOutcome
  connectO : SockOutcome
  startO : SockOutcome
  sendO : SockOutcome

/-- What `connect()` does as observed by the caller. -/
inductive ConnectOutcome where
  | threw : String → ConnectOutcome
  | returned : Bool → ConnectOutcome
deriving DecidableEq

/-- The observable result of a `connect()` call: outcome, final status,
whether a handler reference is retained, and the negotiation message
delivered to the handler (if the call got that far). -/
structure ConnectPost where
  outcome : ConnectOutcome
  state : Nat
  hasConn : Bool
  sentNeg : Option Message
deriving DecidableEq

/-- Model of `__fail_connect(unexpected)` in `Client.connect`:
`(STATE_UNEXP_CLOSED*unexpected) | STATE_CONNECT_FAILED | STATE_NOT_CONNECTED`,
and the handler reference is dropped. -/
def failConnectState (unexpected : Bool) : Nat :=
  (if unexpected then STATE_UNEXP_CLOSED else 0) ||| STATE_CONNECT_FAILED ||| STATE_NOT_CONNECTED

/-- Model of `Client.connect` (client.py lines 226-299), with the socket-level
outcomes supplied by the environment.  The precondition checks raise
`AttributeError` for unset fields, then return `False` for `needs-init`
or a status without `not-connected`.  The bind step runs only when both
`bind_port` and `interface` are set; `socket.timeout` there or at
connect/negotiation marks `unexpected-closure`; `ConnectionRefusedError`
at the connect step is only logged and execution continues; every other
exception is caught by a generic handler and fails the connect. -/
def Client.connect (c : ClientSt) (env : ConnectEnv) : ConnectPost :=
  if c.address = none then ⟨.threw "Address not set", c.state, c.hasConn, none⟩
  else if c.port = none then ⟨.threw "Port not set", c.state, c.hasConn, none⟩
  else if c.clientId = none then ⟨.threw "Client ID not set", c.state, c.hasConn, none⟩
  else if c.state &&& STATE_NEEDS_INIT ≠ 0 then ⟨.returned false, c.state, c.hasConn, none⟩
  else if c.state &&& STATE_NOT_CONNECTED = 0 then ⟨.returned false, c.state, c.hasConn, none⟩
  else
    match (if c.bindPort.isSome && c.interface.isSome then env.bindO else .ok) with
    | .timeout => ⟨.returned false, failConnectState true, false, none⟩
    | .refused => ⟨.returned false, failConnectState false, false, none⟩
    | .err => ⟨.returned false, failConnectState false, false, none⟩
    | .ok =>
      match env.connectO with
      | .timeout => ⟨.returned false, failConnectState true, false, none⟩
      | .err => ⟨.returned false, failConnectState false, false, none⟩
      | _ =>
        match env.startO with
        | .ok =>
          match env.sendO with
          | .ok => ⟨.returned true, STATE_OK ||| STATE_CONNECTED, true,
              some ⟨"negotiation", [("id", JValue.str (c.clientId.getD ""))]⟩⟩
          | .timeout => ⟨.returned false, failConnectState true, false, none⟩
          | _ => ⟨.returned false, failConnectState false, false, none⟩
        | _ => ⟨.returned false, failConnectState false, false, none⟩

/-- A client whose fields have been set (address `127.0.0.1`, port 30000,
id `abc123`): `needs-init` cleared, status `not-connected`. -/
def readyClient : ClientSt :=
  { clientId := some "abc123", address := some "127.0.0.1", port := some 30000,
    interface := none, bindPort := none, state := STATE_NOT_CONNECTED, hasConn := false }

/-- A server-side client handler as `negotiation` concerns it: an
identity (`hid` models Python object identity), the attached socket, the
outbound queue and whether its I/O loop runs. -/
structure SHandler where
  hid : Nat
  sock : Nat
  outQueue : List Message
  running : Bool
deriving DecidableEq

/-- Model of `ClientHandler.reopen_with` (server.py lines 37-40):
`self.sock = sock` goes through the `sock` setter of
`ConnectionHandler` (connection.py lines 99-104), which raises
`AttributeError("Cannot be running")` while the handler is still
flagged to run or its loop thread is alive (modelled by `running`);
otherwise the new socket is swapped in and `start()` restarts the I/O
loop.  The queues are untouched on both paths. -/
def SHandler.reopenWith (h : SHandler) (sock : Nat) : PyResult SHandler :=
  if h.running then .exn "Cannot be running"
  else .ok { h with sock := sock, running := true }

/-- Python truthiness of a JSON scalar. -/
def JValue.truthy : JValue → Bool
  | .str s => if s = "" then false else true
  | .int n => if n = 0 then false else true
  | .bool b => b

/-- The negotiation check of `ClientHandler.__init__` (server.py lines
24-31): the first message within the deadline (`none` models a timeout
or no message), accepted only when its subject is exactly `negotiation`
and its payload has a truthy `id` entry; a missing key raises `KeyError`,
caught by the bare `except`, and a falsy id fails the `if` — either way
`client_id` stays unset. -/
def negotiatedId (firstMsg : Option Message) : Option JValue :=
  match firstMsg with
  | none => none
  | some m =>
    if m.subject = "negotiation" then
      match lookupLast "id" m.payload with
      | some v => if v.truthy then some v else none
      | none => none
    else none

/-- First-match directory lookup: `id in self.__conns` /
`self.__conns[id]` (keys are unique in a Python dict). -/
def lookupDir (dir : List (JValue × SHandler)) (id : JValue) : Option SHandler :=
  match dir with
  | [] => none
  | (k, h) :: rest => if k = id then some h else lookupDir rest id

/-- In-place update of the directory entry for an id
(`self.__conns[client.client_id].reopen_with(...)` mutates the mapped
handler; the mapping itself is unchanged). -/
def updateEntry (dir : List (JValue × SHandler)) (id : JValue) (f : SHandler → SHandler) :
    List (JValue × SHandler) :=
  dir.map (fun kv => if kv.1 = id then (kv.1, f kv.2) else kv)

/-- Model of `Server.__negotiate_client_id` (server.py lines 150-165), given the
result of the negotiation on the new handler.  Returns the new directory and
whether the incoming handler was stopped (discarded).  A failed
negotiation stops the handler and leaves the directory alone; a known id
stops the new handler and reopens the existing entry with the new
socket — and the `AttributeError` that `reopen_with` raises while the
existing handler still runs propagates out of `__negotiate_client_id`
(the accept loop catches only `socket.timeout`), the directory left
as it was; a new id registers the new handler (empty outbound queue,
loop running). -/
def negotiateClientId (dir : List (JValue × SHandler)) (negId : Option JValue)
    (newSock newHid : Nat) : PyResult (List (JValue × SHandler) × Bool) :=
  match negId with
  | none => .ok (dir, true)
  | some id =>
    match lookupDir dir id with
    | some h0 =>
      match h0.reopenWith newSock with
      | .ok h1 => .ok (updateEntry dir id (fun _ => h1), true)
      | .exn s => .exn s
    | none => .ok (dir ++ [(id, ⟨newHid, newSock, [], true⟩)], false)

/-- A concrete message for evaluating the codec. -/
def sampleMsg : Message := ⟨"status", [("a", JValue.int 1), ("ok", JValue.bool true)]⟩

/-- The header of the encoded sample frame. -/
def sampleHdr : List Char := ((encodeFrame sampleMsg).getD ([], [])).1

/-- The body of the encoded sample frame. -/
def sampleBody : List Char := ((encodeFrame sampleMsg).getD ([], [])).2

/-- A 64-byte header block whose first byte is a null byte followed by
non-null JSON content and trailing padding. -/
def cexHeaderBlock : List Char :=
  '\x00' :: (headerJson 0 "a" ++ List.replicate (63 - (headerJson 0 "a").length) '\x00')

/-- A directory with one registered client used to evaluate negotiation. -/
def demoHandler : SHandler := ⟨1, 5, [sampleMsg], false⟩

/-- A one-entry server directory. -/
def demoDir : List (JValue × SHandler) := [(JValue.str "abc", demoHandler)]

/-- A registered handler whose I/O loop is still running. -/
def runningHandler : SHandler := ⟨1, 5, [sampleMsg], true⟩

/-- A directory whose single entry still has a running handler. -/
def runningDir : List (JValue × SHandler) := [(JValue.str "abc", runningHandler)]

theorem charToNatOfNat (n : Nat) (h : n < 0xd800) : (Char.ofNat n).toNat = n := by
  have hv : n.isValidChar := Or.inl h
  simp [Char.ofNat, hv, Char.ofNatAux, Char.toNat, UInt32.toNat]

theorem charOfNatToNat (c : Char) : Char.ofNat c.toNat = c := by
  apply Char.eq_of_val_eq
  have hv : c.toNat.isValidChar := by
    rcases c.valid with h | ⟨h1, h2⟩
    · exact Or.inl h
    · exact Or.inr ⟨h1, h2⟩
  rw [Char.ofNat, dif_pos hv]
  simp [Char.ofNatAux, BitVec.ofNatLt, Char.toNat, UInt32.toNat]
  rcases c with ⟨⟨⟨⟨v, hlt⟩⟩⟩, hval⟩
  rfl

theorem toNat_digitChar (n : Nat) (h : n < 10) : (digitChar n).toNat = 48 + n :=
  charToNatOfNat (48 + n) (by omega)

theorem isDigit_iff (c : Char) : c.isDigit = true ↔ (48 ≤ c.toNat ∧ c.toNat ≤ 57) := by
  simp [Char.isDigit, Char.toNat, UInt32.le_def, UInt32.toNat, BitVec.le_def]

theorem hexVal_hexDigitChar (k : Nat) (h : k < 16) : hexVal (hexDigitChar k) = some k := by
  interval_cases k <;> decide

theorem escChar_length_pos (c : Char) : 1 ≤ (escChar c).length := by
  unfold escChar; split_ifs <;> simp

theorem escList_length_ge (cs : List Char) : cs.length ≤ (escList cs).length := by
  induction cs with
  | nil => simp [escList]
  | cons c cs ih =>
    have := escChar_length_pos c
    simp only [escList, List.length_append, List.length_cons]
    omega

theorem unescUnit_u00 (k : Nat) (hk : k < 32) (tail : List Char) :
    unescUnit ('u' :: '0' :: '0' :: hexDigitChar (k / 16) :: hexDigitChar (k % 16) :: tail)
      = some (Char.ofNat k, tail) := by
  interval_cases k <;> simp +decide [unescUnit, unescHex, hexDigitChar, hexVal]

theorem parseStringBodyF_escList (cs : List Char) :
    ∀ (fuel : Nat) (rest : List Char), cs.length < fuel →
    parseStringBodyF fuel (escList cs ++ '"' :: rest) = some (cs, rest) := by
  induction cs with
  | nil =>
    intro fuel rest hf
    cases fuel with
    | zero => omega
    | succ f => simp [escList, parseStringBodyF]
  | cons c cs ih =>
    intro fuel rest hf
    cases fuel with
    | zero => omega
    | succ f =>
    have hf2 : cs.length < f := by simp at hf; omega
    have hassoc : escList (c :: cs) ++ '"' :: rest = escChar c ++ (escList cs ++ '"' :: rest) := by
      simp [escList]
    rw [hassoc]
    by_cases h1 : c = '"'
    · subst h1
      simp +decide [escChar, parseStringBodyF, unescUnit, unescSimple, ih f rest hf2]
    by_cases h2 : c = '\\'
    · subst h2
      simp +decide [escChar, parseStringBodyF, unescUnit, unescSimple, ih f rest hf2]
    by_cases h3 : c = '\x08'
    · subst h3
      simp +decide [escChar, parseStringBodyF, unescUnit, unescSimple, ih f rest hf2]
    by_cases h4 : c = '\x09'
    · subst h4
      simp +decide [escChar, parseStringBodyF, unescUnit, unescSimple, ih f rest hf2]
    by_cases h5 : c = '\x0a'
    · subst h5
      simp +decide [escChar, parseStringBodyF, unescUnit, unescSimple, ih f rest hf2]
    by_cases h6 : c = '\x0c'
    · subst h6
      simp +decide [escChar, parseStringBodyF, unescUnit, unescSimple, ih f rest hf2]
    by_cases h7 : c = '\x0d'
    · subst h7
      simp +decide [escChar, parseStringBodyF, unescUnit, unescSimple, ih f rest hf2]
    by_cases h8 : c.toNat < 32
    · have hchain : escChar c = ['\\', 'u', '0', '0',
          hexDigitChar (c.toNat / 16), hexDigitChar (c.toNat % 16)] := by
        simp [escChar, h1, h2, h3, h4, h5, h6, h7, h8]
      rw [hchain]
      simp only [List.cons_append, List.nil_append, parseStringBodyF]
      rw [if_neg (by decide), if_pos (by decide)]
      simp only [List.append_eq, List.cons_append, List.nil_append]
      rw [unescUnit_u00 c.toNat h8 (escList cs ++ '"' :: rest), charOfNatToNat]
      simp only [List.append_eq, List.nil_append]
      rw [ih f rest hf2]
    · have hchain : escChar c = [c] := by
        simp [escChar, h1, h2, h3, h4, h5, h6, h7, h8]
      rw [hchain]
      simp only [List.cons_append, List.nil_append, parseStringBodyF]
      rw [if_neg h1, if_neg h2, if_neg h8]
      simp only [List.append_eq, List.nil_append]
      rw [ih f rest hf2]

theorem parseStringBody_escList (cs rest : List Char) :
    parseStringBody (escList cs ++ '"' :: rest) = some (cs, rest) := by
  apply parseStringBodyF_escList
  have h1 := escList_length_ge cs
  simp only [List.length_append, List.length_cons]
  omega

theorem isDigit_digitChar (n : Nat) (h : n < 10) : (digitChar n).isDigit = true := by
  rw [isDigit_iff, toNat_digitChar n h]
  omega

theorem natDigitsAux_cons (fuel : Nat) :
    ∀ n : Nat, n < fuel →
    ∃ d ds, natDigitsAux fuel n = d :: ds ∧ d.isDigit = true := by
  induction fuel with
  | zero => intro n h; omega
  | succ f ih =>
    intro n h
    by_cases h10 : n < 10
    · exact ⟨digitChar n, [], by simp [natDigitsAux, h10], isDigit_digitChar n h10⟩
    · have hlt : n / 10 < f := by omega
      obtain ⟨d, ds, hds, hdig⟩ := ih (n / 10) hlt
      refine ⟨d, ds ++ [digitChar (n % 10)], ?_, hdig⟩
      simp [natDigitsAux, h10, hds]

theorem parseDigits_natDigitsAux (fuel : Nat) :
    ∀ n : Nat, n < fuel → ∀ (acc : Nat) (rest : List Char),
    parseDigits (natDigitsAux fuel n ++ rest) acc
      = parseDigits rest (acc * 10 ^ (natDigitsAux fuel n).length + n) := by
  induction fuel with
  | zero => intro n h; omega
  | succ f ih =>
    intro n h acc rest
    by_cases h10 : n < 10
    · have hd := isDigit_digitChar n h10
      have ht := toNat_digitChar n h10
      simp only [natDigitsAux, if_pos h10, List.cons_append, List.nil_append,
        List.length_cons, List.length_nil, parseDigits, hd, if_pos, ht]
      norm_num
    · have hlt : n / 10 < f := by omega
      have hstep : natDigitsAux (f + 1) n
          = natDigitsAux f (n / 10) ++ [digitChar (n % 10)] := by
        simp [natDigitsAux, h10]
      rw [hstep, List.append_assoc, ih (n / 10) hlt acc, List.cons_append, List.nil_append]
      have hd := isDigit_digitChar (n % 10) (by omega)
      have ht := toNat_digitChar (n % 10) (by omega)
      simp only [parseDigits, hd, if_pos, ht]
      have harg : (acc * 10 ^ (natDigitsAux f (n / 10)).length + n / 10) * 10 + (48 + n % 10 - 48)
          = acc * 10 ^ (natDigitsAux f (n / 10) ++ [digitChar (n % 10)]).length + n := by
        simp only [List.length_append, List.length_cons, List.length_nil]
        rw [pow_succ, ← mul_assoc]
        omega
      rw [harg]

theorem parseDigits_boundary (n : Nat) (rest : List Char) (h : digitBoundary rest = true) :
    parseDigits rest n = (n, rest) := by
  cases rest with
  | nil => simp [parseDigits]
  | cons c cs =>
    simp only [digitBoundary, Bool.not_eq_true'] at h
    simp [parseDigits, h]

theorem parseDigits1_natDigits (n : Nat) (rest : List Char) (h : digitBoundary rest = true) :
    parseDigits1 (natDigits n ++ rest) = some (n, rest) := by
  obtain ⟨d, ds, hds, hdig⟩ := natDigitsAux_cons (n + 1) n (by omega)
  rw [natDigits, hds, List.cons_append]
  simp only [parseDigits1, hdig, if_pos]
  rw [← List.cons_append, ← hds, ← natDigits]
  rw [natDigits, parseDigits_natDigitsAux (n + 1) n (by omega) 0 rest]
  rw [parseDigits_boundary _ _ h]
  norm_num

theorem parseScalar_dumpValue (v : JValue) (rest : List Char) (h : digitBoundary rest = true) :
    parseScalar (dumpValue v ++ rest) = some (v, rest) := by
  cases v with
  | str s =>
    simp only [dumpValue, dumpString, List.cons_append, List.append_assoc,
      List.nil_append]
    simp only [parseScalar, if_pos]
    rw [parseStringBody_escList s.data rest]
  | int n =>
    cases n with
    | ofNat m =>
      obtain ⟨d, ds, hds, hdig⟩ := natDigitsAux_cons (m + 1) m (by omega)
      have hdsm : dumpValue (JValue.int (Int.ofNat m)) = d :: ds := by
        simp [dumpValue, intRepr, natDigits, hds]
      rw [hdsm, List.cons_append]
      have hne1 : d ≠ '"' := by intro e; rw [e] at hdig; exact absurd hdig (by decide)
      have hne2 : d ≠ '-' := by intro e; rw [e] at hdig; exact absurd hdig (by decide)
      simp only [parseScalar, if_neg hne1, if_neg hne2, hdig, if_pos]
      rw [← List.cons_append, ← hds, ← natDigits, parseDigits1_natDigits m rest h]
      rfl
    | negSucc m =>
      simp only [dumpValue, intRepr, List.cons_append]
      simp only [parseScalar, if_neg (by decide : ¬ ('-' : Char) = '"'), if_pos]
      rw [parseDigits1_natDigits (m + 1) rest h]
      have : (-((m : Int) + 1)) = Int.negSucc m := by
        rw [Int.negSucc_eq]
      simp only [Nat.cast_add, Nat.cast_one] at this ⊢
      rw [this]
  | bool b =>
    cases b <;> simp +decide [dumpValue, parseScalar, expectLit]

theorem skipWs_cons (c : Char) (cs : List Char)
    (h : ¬(c = ' ' ∨ c = '\x09' ∨ c = '\x0a' ∨ c = '\x0d')) : skipWs (c :: cs) = c :: cs := by
  simp [skipWs, h]

theorem digit_not_ws (d : Char) (h : d.isDigit = true) :
    ¬(d = ' ' ∨ d = '\x09' ∨ d = '\x0a' ∨ d = '\x0d') := by
  intro hor
  rcases hor with e | e | e | e <;> (rw [e] at h; exact absurd h (by decide))

theorem skipWs_dumpValue (v : JValue) (rest : List Char) :
    skipWs (dumpValue v ++ rest) = dumpValue v ++ rest := by
  cases v with
  | str s =>
    simp only [dumpValue, dumpString, List.cons_append]
    exact skipWs_cons _ _ (by decide)
  | int n =>
    cases n with
    | ofNat m =>
      obtain ⟨d, ds, hds, hdig⟩ := natDigitsAux_cons (m + 1) m (by omega)
      have hdsm : dumpValue (JValue.int (Int.ofNat m)) = d :: ds := by
        simp [dumpValue, intRepr, natDigits, hds]
      rw [hdsm, List.cons_append]
      exact skipWs_cons _ _ (digit_not_ws d hdig)
    | negSucc m =>
      simp only [dumpValue, intRepr, List.cons_append]
      exact skipWs_cons _ _ (by decide)
  | bool b =>
    cases b <;> (simp only [dumpValue, List.cons_append]; exact skipWs_cons _ _ (by decide))

theorem dumpMembers_cons_head (p : String × JValue) (tl : List (String × JValue)) :
    ∃ t, dumpMembers (p :: tl) = '"' :: t := by
  rcases p with ⟨k, v⟩
  cases tl with
  | nil =>
    exact ⟨escList k.data ++ '"' :: ':' :: ' ' :: dumpValue v, by simp [dumpMembers, dumpString]⟩
  | cons m tl2 =>
    exact ⟨escList k.data ++ '"' :: ':' :: ' ' ::
      (dumpValue v ++ ',' :: ' ' :: dumpMembers (m :: tl2)), by simp [dumpMembers, dumpString]⟩

theorem parseMembersRest_dumpMembers (obj : List (String × JValue)) :
    ∀ (fuel : Nat) (rest : List Char),
      obj ≠ [] → obj.length ≤ fuel →
      parseMembersRest fuel (dumpMembers obj ++ '}' :: rest) = some (obj, rest) := by
  induction obj with
  | nil => intro fuel rest hne _; exact absurd rfl hne
  | cons p tl ih =>
    rcases p with ⟨k, v⟩
    intro fuel rest _ hf
    cases fuel with
    | zero => simp at hf
    | succ f =>
    cases tl with
    | nil =>
      have hfmt : dumpMembers [(k, v)] ++ '}' :: rest
          = '"' :: (escList k.data ++ '"' :: (':' :: ' ' :: (dumpValue v ++ '}' :: rest))) := by
        simp [dumpMembers, dumpString]
      have h1 := parseStringBody_escList k.data (':' :: ' ' :: (dumpValue v ++ '}' :: rest))
      have h2 : skipWs (':' :: ' ' :: (dumpValue v ++ '}' :: rest))
          = ':' :: ' ' :: (dumpValue v ++ '}' :: rest) := skipWs_cons _ _ (by decide)
      have h3 : skipWs (' ' :: (dumpValue v ++ '}' :: rest)) = dumpValue v ++ '}' :: rest := by
        rw [skipWs, if_pos (by norm_num)]
        exact skipWs_dumpValue v _
      have h4 : parseScalar (dumpValue v ++ '}' :: rest) = some (v, '}' :: rest) :=
        parseScalar_dumpValue v _ (by simp +decide [digitBoundary])
      have h5 : skipWs ('}' :: rest) = '}' :: rest := skipWs_cons _ _ (by decide)
      rw [hfmt]
      simp only [parseMembersRest, if_pos, h1, h2, h3, h4, h5]
    | cons m tl2 =>
      have hfmt : dumpMembers ((k, v) :: m :: tl2) ++ '}' :: rest
          = '"' :: (escList k.data ++ '"' :: (':' :: ' ' ::
              (dumpValue v ++ ',' :: ' ' :: (dumpMembers (m :: tl2) ++ '}' :: rest)))) := by
        simp [dumpMembers, dumpString]
      have h1 := parseStringBody_escList k.data
        (':' :: ' ' :: (dumpValue v ++ ',' :: ' ' :: (dumpMembers (m :: tl2) ++ '}' :: rest)))
      have h2 : skipWs (':' :: ' ' :: (dumpValue v ++ ',' :: ' ' :: (dumpMembers (m :: tl2) ++ '}' :: rest)))
          = ':' :: ' ' :: (dumpValue v ++ ',' :: ' ' :: (dumpMembers (m :: tl2) ++ '}' :: rest)) :=
        skipWs_cons _ _ (by decide)
      have h3 : skipWs (' ' :: (dumpValue v ++ ',' :: ' ' :: (dumpMembers (m :: tl2) ++ '}' :: rest)))
          = dumpValue v ++ ',' :: ' ' :: (dumpMembers (m :: tl2) ++ '}' :: rest) := by
        rw [skipWs, if_pos (by norm_num)]
        exact skipWs_dumpValue v _
      have h4 : parseScalar (dumpValue v ++ ',' :: ' ' :: (dumpMembers (m :: tl2) ++ '}' :: rest))
          = some (v, ',' :: ' ' :: (dumpMembers (m :: tl2) ++ '}' :: rest)) :=
        parseScalar_dumpValue v _ (by simp +decide [digitBoundary])
      have h5 : skipWs (',' :: ' ' :: (dumpMembers (m :: tl2) ++ '}' :: rest))
          = ',' :: ' ' :: (dumpMembers (m :: tl2) ++ '}' :: rest) := skipWs_cons _ _ (by decide)
      obtain ⟨t, ht⟩ := dumpMembers_cons_head m tl2
      have h6 : skipWs (' ' :: (dumpMembers (m :: tl2) ++ '}' :: rest))
          = dumpMembers (m :: tl2) ++ '}' :: rest := by
        rw [skipWs, if_pos (by norm_num), ht, List.cons_append]
        exact skipWs_cons _ _ (by decide)
      have h7 : parseMembersRest f (dumpMembers (m :: tl2) ++ '}' :: rest) = some (m :: tl2, rest) :=
        ih f rest (by simp) (by simp at hf ⊢; omega)
      rw [hfmt]
      simp only [parseMembersRest, if_pos, h1, h2, h3, h4, h5, h6, h7]

theorem dumpString_length_ge (k : String) : 2 ≤ (dumpString k).length := by
  simp [dumpString]

theorem dumpMembers_length_ge (obj : List (String × JValue)) :
    obj.length ≤ (dumpMembers obj).length := by
  induction obj with
  | nil => simp [dumpMembers]
  | cons p tl ih =>
    rcases p with ⟨k, v⟩
    have hk := dumpString_length_ge k
    cases tl with
    | nil => simp [dumpMembers]; omega
    | cons m tl2 =>
      simp only [dumpMembers, List.length_append, List.length_cons] at ih ⊢
      omega

theorem parseObject_dumps (obj : List (String × JValue)) (fuel : Nat) (rest : List Char)
    (hf : obj.length ≤ fuel) :
    parseObject fuel (jsonDumpsObj obj ++ rest) = some (obj, rest) := by
  cases obj with
  | nil =>
    have hfmt : jsonDumpsObj ([] : List (String × JValue)) ++ rest = '{' :: '}' :: rest := by
      simp [jsonDumpsObj, dumpMembers]
    rw [hfmt]
    have h1 : skipWs ('{' :: '}' :: rest) = '{' :: '}' :: rest := skipWs_cons _ _ (by decide)
    have h2 : skipWs ('}' :: rest) = '}' :: rest := skipWs_cons _ _ (by decide)
    simp only [parseObject, h1, h2]
  | cons p tl =>
    have hfmt : jsonDumpsObj (p :: tl) ++ rest = '{' :: (dumpMembers (p :: tl) ++ '}' :: rest) := by
      simp [jsonDumpsObj]
    obtain ⟨t, ht⟩ := dumpMembers_cons_head p tl
    have h1 : skipWs ('{' :: '"' :: (t ++ '}' :: rest)) = '{' :: '"' :: (t ++ '}' :: rest) :=
      skipWs_cons _ _ (by decide)
    have h2 : skipWs ('"' :: (t ++ '}' :: rest)) = '"' :: (t ++ '}' :: rest) :=
      skipWs_cons _ _ (by decide)
    have h3 : parseMembersRest fuel ('"' :: (t ++ '}' :: rest)) = some (p :: tl, rest) := by
      have := parseMembersRest_dumpMembers (p :: tl) fuel rest (by simp) hf
      rw [ht, List.cons_append] at this
      exact this
    rw [hfmt, ht, List.cons_append]
    simp only [parseObject, h1, h2, h3]
    split
    · rename_i r2 heq
      exact absurd heq (by simp)
    · exact h3

theorem jsonLoadsObj_dumps (obj : List (String × JValue)) :
    jsonLoadsObj (jsonDumpsObj obj) = some obj := by
  have hlen : obj.length ≤ (jsonDumpsObj obj).length + 1 := by
    have := dumpMembers_length_ge obj
    simp only [jsonDumpsObj, List.length_cons, List.length_append]
    omega
  have h1 : jsonDumpsObj obj ++ ([] : List Char) = jsonDumpsObj obj := List.append_nil _
  have h2 := parseObject_dumps obj ((jsonDumpsObj obj).length + 1) [] hlen
  rw [h1] at h2
  simp [jsonLoadsObj, h2, skipWs]

theorem hexDigitChar_ne_null (k : Nat) (h : k < 16) : hexDigitChar k ≠ '\x00' := by
  intro e
  have hk := hexVal_hexDigitChar k h
  rw [e] at hk
  simp +decide [hexVal] at hk

theorem digitChar_ne_null (k : Nat) (h : k < 10) : digitChar k ≠ '\x00' := by
  intro e
  have hk := toNat_digitChar k h
  rw [e] at hk
  have h0 : ('\x00').toNat = 0 := by decide
  rw [h0] at hk
  omega

theorem escChar_noNull (c : Char) : ∀ d ∈ escChar c, d ≠ '\x00' := by
  intro d hd
  unfold escChar at hd
  split_ifs at hd with h1 h2 h3 h4 h5 h6 h7 h8
  · simp only [List.mem_cons, List.not_mem_nil, or_false] at hd
    rcases hd with rfl | rfl <;> decide
  · simp only [List.mem_cons, List.not_mem_nil, or_false] at hd
    rcases hd with rfl | rfl <;> decide
  · simp only [List.mem_cons, List.not_mem_nil, or_false] at hd
    rcases hd with rfl | rfl <;> decide
  · simp only [List.mem_cons, List.not_mem_nil, or_false] at hd
    rcases hd with rfl | rfl <;> decide
  · simp only [List.mem_cons, List.not_mem_nil, or_false] at hd
    rcases hd with rfl | rfl <;> decide
  · simp only [List.mem_cons, List.not_mem_nil, or_false] at hd
    rcases hd with rfl | rfl <;> decide
  · simp only [List.mem_cons, List.not_mem_nil, or_false] at hd
    rcases hd with rfl | rfl <;> decide
  · simp only [List.mem_cons, List.not_mem_nil, or_false] at hd
    rcases hd with rfl | rfl | rfl | rfl | rfl | rfl
    · decide
    · decide
    · decide
    · decide
    · exact hexDigitChar_ne_null _ (by omega)
    · exact hexDigitChar_ne_null _ (by omega)
  · simp only [List.mem_cons, List.not_mem_nil, or_false] at hd
    subst hd
    intro e
    rw [e] at h8
    exact h8 (by decide)

theorem escList_noNull (l : List Char) : ∀ d ∈ escList l, d ≠ '\x00' := by
  induction l with
  | nil => intro d hd; simp [escList] at hd
  | cons c cs ih =>
    intro d hd
    simp only [escList, List.mem_append] at hd
    rcases hd with h | h
    · exact escChar_noNull c d h
    · exact ih d h

theorem dumpString_noNull (k : String) : ∀ d ∈ dumpString k, d ≠ '\x00' := by
  intro d hd
  simp only [dumpString, List.mem_cons, List.mem_append] at hd
  rcases hd with e | h | e
  · subst e; decide
  · exact escList_noNull _ d h
  · simp only [List.mem_cons, List.not_mem_nil, or_false] at e; subst e; decide

theorem natDigitsAux_noNull (fuel : Nat) : ∀ n, ∀ d ∈ natDigitsAux fuel n, d ≠ '\x00' := by
  induction fuel with
  | zero => intro n d hd; simp [natDigitsAux] at hd
  | succ f ih =>
    intro n d hd
    by_cases h10 : n < 10
    · simp [natDigitsAux, h10] at hd
      subst hd
      exact digitChar_ne_null n h10
    · simp only [natDigitsAux, if_neg h10, List.mem_append, List.mem_cons,
        List.not_mem_nil, or_false] at hd
      rcases hd with h | h
      · exact ih (n / 10) d h
      · subst h; exact digitChar_ne_null _ (by omega)

theorem dumpValue_noNull (v : JValue) : ∀ d ∈ dumpValue v, d ≠ '\x00' := by
  intro d hd
  cases v with
  | str s => exact dumpString_noNull s d hd
  | int n =>
    cases n with
    | ofNat m => exact natDigitsAux_noNull _ _ d hd
    | negSucc m =>
      simp only [dumpValue, intRepr, List.mem_cons] at hd
      rcases hd with e | h
      · subst e; decide
      · exact natDigitsAux_noNull _ _ d h
  | bool b =>
    cases b with
    | true =>
      simp only [dumpValue, List.mem_cons, List.not_mem_nil, or_false] at hd
      rcases hd with rfl | rfl | rfl | rfl <;> decide
    | false =>
      simp only [dumpValue, List.mem_cons, List.not_mem_nil, or_false] at hd
      rcases hd with rfl | rfl | rfl | rfl | rfl <;> decide

theorem dumpMembers_noNull (obj : List (String × JValue)) : ∀ d ∈ dumpMembers obj, d ≠ '\x00' := by
  induction obj with
  | nil => intro d hd; simp [dumpMembers] at hd
  | cons p tl ih =>
    rcases p with ⟨k, v⟩
    cases tl with
    | nil =>
      intro d hd
      rw [dumpMembers] at hd
      rcases List.mem_append.mp hd with h | h
      · exact dumpString_noNull k d h
      rcases List.mem_cons.mp h with rfl | h
      · decide
      rcases List.mem_cons.mp h with rfl | h
      · decide
      exact dumpValue_noNull v d h
    | cons m tl2 =>
      intro d hd
      rw [dumpMembers] at hd
      rcases List.mem_append.mp hd with h | h
      · rcases List.mem_append.mp h with h | h
        · exact dumpString_noNull k d h
        rcases List.mem_cons.mp h with rfl | h
        · decide
        rcases List.mem_cons.mp h with rfl | h
        · decide
        exact dumpValue_noNull v d h
      · rcases List.mem_cons.mp h with rfl | h
        · decide
        rcases List.mem_cons.mp h with rfl | h
        · decide
        exact ih d h

theorem jsonDumpsObj_noNull (obj : List (String × JValue)) : ∀ d ∈ jsonDumpsObj obj, d ≠ '\x00' := by
  intro d hd
  simp only [jsonDumpsObj, List.mem_cons, List.mem_append] at hd
  rcases hd with e | h | e
  · subst e; decide
  · exact dumpMembers_noNull obj d h
  · simp only [List.mem_cons, List.not_mem_nil, or_false] at e; subst e; decide

theorem removeNulls_pad (obj : List (String × JValue)) (k : Nat) :
    removeNulls (jsonDumpsObj obj ++ List.replicate k '\x00') = jsonDumpsObj obj := by
  rw [removeNulls, List.filter_append]
  have h1 : List.filter (fun c => c ≠ '\x00') (jsonDumpsObj obj) = jsonDumpsObj obj := by
    rw [List.filter_eq_self]
    intro a ha
    simp [jsonDumpsObj_noNull obj a ha]
  have h2 : List.filter (fun c => c ≠ '\x00') (List.replicate k '\x00') = [] := by
    rw [List.filter_replicate]
    simp
  rw [h1, h2, List.append_nil]

theorem utf8Len_append (a b : List Char) : utf8Len (a ++ b) = utf8Len a + utf8Len b := by
  simp [utf8Len]

theorem utf8Len_replicate_null (k : Nat) : utf8Len (List.replicate k '\x00') = k := by
  induction k with
  | zero => simp [utf8Len]
  | succ j ih =>
    rw [List.replicate_succ]
    have : utf8Len ('\x00' :: List.replicate j '\x00')
        = Char.utf8Size '\x00' + utf8Len (List.replicate j '\x00') := by
      simp [utf8Len]
    rw [this, ih]
    have h1 : Char.utf8Size '\x00' = 1 := by decide
    omega

theorem encodeHeader_padded (n : Nat) (subj : String) (hdr : List Char)
    (h : encodeHeader n subj = some hdr) : utf8Len hdr = HEADER_LEN_BYTES := by
  unfold encodeHeader at h
  split_ifs at h with hov
  have hh : headerJson n subj
      ++ List.replicate (HEADER_LEN_BYTES - utf8Len (headerJson n subj)) '\x00' = hdr := by
    injection h
  rw [← hh, utf8Len_append, utf8Len_replicate_null]
  omega

theorem decodeHeader_encodeHeader (n : Nat) (subj : String) (hdr : List Char)
    (h : encodeHeader n subj = some hdr) :
    decodeHeader hdr = some (JValue.int n, JValue.str subj) := by
  unfold encodeHeader at h
  split_ifs at h with hov
  have hh : headerJson n subj
      ++ List.replicate (HEADER_LEN_BYTES - utf8Len (headerJson n subj)) '\x00' = hdr := by
    injection h
  rw [← hh]
  unfold decodeHeader headerJson
  rw [removeNulls_pad, jsonLoadsObj_dumps]
  simp +decide [lookupLast]

theorem deserialize_serialize (subj : String) (p : List (String × JValue)) :
    Message.deserialize subj (jsonDumpsObj p) = some ⟨subj, p⟩ := by
  unfold Message.deserialize
  rw [jsonLoadsObj_dumps]

/-- C7: after `N` consecutive failed reconnect attempts the wait before
attempt `N+1` equals `min(0.1 * 2^N, 15)` seconds: the sleeptime starts
at `0.1`, doubles after each failed attempt and is capped at `15`. -/
theorem C7_reconnect_backoff (n : Nat) :
    reconnectSleeptime n = min ((1 : ℚ) / 10 * 2 ^ n) 15 := by
  induction n with
  | zero =>
    rw [reconnectSleeptime, pow_zero, mul_one]
    rw [min_eq_left (by norm_num)]
  | succ k ih =>
    rw [reconnectSleeptime, ih, pow_succ, ← mul_assoc]
    by_cases h : (1 : ℚ) / 10 * 2 ^ k ≤ 15
    · rw [min_eq_left h]
    · have h15 : (15 : ℚ) ≤ (1 : ℚ) / 10 * 2 ^ k := le_of_not_le h
      rw [min_eq_right h15]
      rw [min_eq_right (by norm_num : (15 : ℚ) ≤ 15 * 2)]
      rw [min_eq_right (by linarith)]

/-- C9: the public `client_id` property getter returns the `address`
field, not the stored client id: after setting address to `a` and
client id to `cid` with `a ≠ cid`, the property reads `a`, even though
`connect()` sends `cid` in the negotiation message. -/
theorem C9_client_id_getter (a cid : String) (pn : Nat) (h : a ≠ cid) :
    ∃ c1 c2 c3 : ClientSt,
      Client.setAddress Client.init a = .ok c1 ∧
      Client.setClientId c1 cid = .ok c2 ∧
      Client.setPort c2 pn = .ok c3 ∧
      Client.clientIdProp c3 = some a ∧
      Client.clientIdProp c3 ≠ some cid ∧
      (Client.connect c3 ⟨.ok, .ok, .ok, .ok⟩).sentNeg
        = some ⟨"negotiation", [("id", JValue.str cid)]⟩ := by
  refine ⟨⟨none, some a, none, none, none, 9, false⟩,
    ⟨some cid, some a, none, none, none, 9, false⟩,
    ⟨some cid, some a, some pn, none, none, 8, false⟩, ?_, ?_, ?_, rfl, ?_, ?_⟩
  · simp +decide [Client.setAddress, Client.init, checkInited, clearFlag,
      STATE_RUNNING, STATE_NEEDS_INIT, STATE_NOT_CONNECTED]
  · simp +decide [Client.setClientId, checkInited, clearFlag, STATE_RUNNING, STATE_NEEDS_INIT]
  · simp +decide [Client.setPort, checkInited, clearFlag, STATE_RUNNING, STATE_NEEDS_INIT]
  · simp [Client.clientIdProp, h]
  · simp +decide [Client.connect, STATE_NEEDS_INIT, STATE_NOT_CONNECTED]

theorem C9_client_id_getter_witness :
    ("addr" : String) ≠ "id01" ∧
    ∃ c1 c2 c3 : ClientSt,
      Client.setAddress Client.init "addr" = .ok c1 ∧
      Client.setClientId c1 "id01" = .ok c2 ∧
      Client.setPort c2 30000 = .ok c3 ∧
      Client.clientIdProp c3 = some "addr" ∧
      Client.clientIdProp c3 ≠ some "id01" ∧
      (Client.connect c3 ⟨.ok, .ok, .ok, .ok⟩).sentNeg
        = some ⟨"negotiation", [("id", JValue.str "id01")]⟩ :=
  ⟨by decide, C9_client_id_getter "addr" "id01" 30000 (by decide)⟩

/-- C2 counterexample: a refused connection at the connect step does not
make `connect()` fail — `ConnectionRefusedError` is only logged and the
call proceeds to report success, keep the handler, and set
`ok | connected`, contradicting the claim that every failure in steps
2-3, including a refusal, yields `connect-failed | not-connected` with
the handler discarded. -/
theorem C2_counterexample :
    (Client.connect readyClient ⟨.ok, .refused, .ok, .ok⟩).outcome = .returned true ∧
    (Client.connect readyClient ⟨.ok, .refused, .ok, .ok⟩).state = (STATE_OK ||| STATE_CONNECTED) ∧
    (Client.connect readyClient ⟨.ok, .refused, .ok, .ok⟩).hasConn = true ∧
    (Client.connect readyClient ⟨.ok, .refused, .ok, .ok⟩).state
      ≠ (STATE_CONNECT_FAILED ||| STATE_NOT_CONNECTED) := by
  decide

/-- C2 amended: with address, port and client-id set, `connect()` never
propagates an exception; a timeout at the bind, connect or
negotiation-send step returns failure with status
`unexpected-closure | connect-failed | not-connected`; any other
exception at bind, start or send, and a non-refusal error at connect,
returns failure with `connect-failed | not-connected`; in every failure
case the handler is discarded; but a refused connection at the connect
step is treated exactly as a successful connect (only logged, execution
continues to success). -/
theorem C2_connect_failure_paths (c : ClientSt) (env : ConnectEnv)
    (ha : c.address ≠ none) (hp : c.port ≠ none) (hc : c.clientId ≠ none) :
    (∀ s, (Client.connect c env).outcome ≠ .threw s) ∧
    (Client.connect c { env with connectO := .refused }
      = Client.connect c { env with connectO := .ok }) ∧
    (c.state &&& STATE_NEEDS_INIT = 0 → c.state &&& STATE_NOT_CONNECTED ≠ 0 →
      ((c.bindPort.isSome && c.interface.isSome) = true → env.bindO = .timeout →
        Client.connect c env = ⟨.returned false, failConnectState true, false, none⟩) ∧
      ((c.bindPort.isSome && c.interface.isSome) = true →
        (env.bindO = .refused ∨ env.bindO = .err) →
        Client.connect c env = ⟨.returned false, failConnectState false, false, none⟩) ∧
      (((c.bindPort.isSome && c.interface.isSome) = false ∨ env.bindO = .ok) →
        env.connectO = .timeout →
        Client.connect c env = ⟨.returned false, failConnectState true, false, none⟩) ∧
      (((c.bindPort.isSome && c.interface.isSome) = false ∨ env.bindO = .ok) →
        env.connectO = .err →
        Client.connect c env = ⟨.returned false, failConnectState false, false, none⟩) ∧
      (((c.bindPort.isSome && c.interface.isSome) = false ∨ env.bindO = .ok) →
        (env.connectO = .ok ∨ env.connectO = .refused) → env.startO ≠ .ok →
        Client.connect c env = ⟨.returned false, failConnectState false, false, none⟩) ∧
      (((c.bindPort.isSome && c.interface.isSome) = false ∨ env.bindO = .ok) →
        (env.connectO = .ok ∨ env.connectO = .refused) → env.startO = .ok →
        env.sendO = .timeout →
        Client.connect c env = ⟨.returned false, failConnectState true, false, none⟩) ∧
      (((c.bindPort.isSome && c.interface.isSome) = false ∨ env.bindO = .ok) →
        (env.connectO = .ok ∨ env.connectO = .refused) → env.startO = .ok →
        (env.sendO = .refused ∨ env.sendO = .err) →
        Client.connect c env = ⟨.returned false, failConnectState false, false, none⟩) ∧
      (((c.bindPort.isSome && c.interface.isSome) = false ∨ env.bindO = .ok) →
        (env.connectO = .ok ∨ env.connectO = .refused) → env.startO = .ok →
        env.sendO = .ok →
        Client.connect c env = ⟨.returned true, STATE_OK ||| STATE_CONNECTED, true,
          some ⟨"negotiation", [("id", JValue.str (c.clientId.getD ""))]⟩⟩)) := by
  obtain ⟨a, ha2⟩ : ∃ x, c.address = some x := by
    cases hx : c.address with
    | none => exact absurd hx ha
    | some v => exact ⟨v, rfl⟩
  obtain ⟨p, hp2⟩ : ∃ x, c.port = some x := by
    cases hx : c.port with
    | none => exact absurd hx hp
    | some v => exact ⟨v, rfl⟩
  obtain ⟨cid, hc2⟩ : ∃ x, c.clientId = some x := by
    cases hx : c.clientId with
    | none => exact absurd hx hc
    | some v => exact ⟨v, rfl⟩
  rcases env with ⟨bO, cO, stO, sdO⟩
  by_cases hni : c.state &&& STATE_NEEDS_INIT = 0
  · by_cases hnc : c.state &&& STATE_NOT_CONNECTED = 0
    · simp +decide [Client.connect, ha2, hp2, hc2, hni, hnc]
    · by_cases hb : (c.bindPort.isSome && c.interface.isSome) = true
      · cases bO <;> cases cO <;> cases stO <;> cases sdO <;>
          simp +decide [Client.connect, ha2, hp2, hc2, hni, hnc, hb, failConnectState]
      · cases cO <;> cases stO <;> cases sdO <;>
          simp +decide [Client.connect, ha2, hp2, hc2, hni, hnc, hb, failConnectState]
  · simp +decide [Client.connect, ha2, hp2, hc2, hni]

theorem C2_connect_failure_paths_witness :
    (Client.connect readyClient ⟨.ok, .refused, .ok, .ok⟩).outcome ≠ .threw "x" ∧
    Client.connect readyClient ⟨.ok, .refused, .ok, .ok⟩
      = Client.connect readyClient ⟨.ok, .ok, .ok, .ok⟩ ∧
    Client.connect readyClient ⟨.ok, .timeout, .ok, .ok⟩
      = ⟨.returned false, failConnectState true, false, none⟩ ∧
    Client.connect readyClient ⟨.ok, .refused, .ok, .ok⟩
      = ⟨.returned true, STATE_OK ||| STATE_CONNECTED, true,
          some ⟨"negotiation", [("id", JValue.str "abc123")]⟩⟩ :=
  ⟨(C2_connect_failure_paths readyClient ⟨.ok, .refused, .ok, .ok⟩
      (by decide) (by decide) (by decide)).1 "x",
   (C2_connect_failure_paths readyClient ⟨.ok, .refused, .ok, .ok⟩
      (by decide) (by decide) (by decide)).2.1,
   (((C2_connect_failure_paths readyClient ⟨.ok, .timeout, .ok, .ok⟩
      (by decide) (by decide) (by decide)).2.2 (by decide) (by decide)).2.2.1
      (by decide) (by decide)),
   (((C2_connect_failure_paths readyClient ⟨.ok, .refused, .ok, .ok⟩
      (by decide) (by decide) (by decide)).2.2 (by decide) (by decide)).2.2.2.2.2.2.2
      (by decide) (by decide) (by decide) (by decide))⟩

/-- C3 counterexample: calling `connect()` on a fresh
client (address, port, client-id unset, `needs-init` set) raises
`AttributeError("Address not set")` instead of returning failure — the
claim that such calls return failure without throwing is false. -/
theorem C3_counterexample :
    (Client.connect Client.init ⟨.ok, .ok, .ok, .ok⟩).outcome = .threw "Address not set" ∧
    ∀ b, (Client.connect Client.init ⟨.ok, .ok, .ok, .ok⟩).outcome ≠ .returned b := by
  decide

/-- C3 amended: an unset address, port or client-id makes `connect()`
raise `AttributeError` (with the state and handler untouched); only when
all three fields are set does a set `needs-init` flag or a status
without `not-connected` make `connect()` return failure without
throwing and without side effects. -/
theorem C3_connect_preconditions (c : ClientSt) (env : ConnectEnv) :
    (c.address = none →
      Client.connect c env = ⟨.threw "Address not set", c.state, c.hasConn, none⟩) ∧
    (c.address ≠ none → c.port = none →
      Client.connect c env = ⟨.threw "Port not set", c.state, c.hasConn, none⟩) ∧
    (c.address ≠ none → c.port ≠ none → c.clientId = none →
      Client.connect c env = ⟨.threw "Client ID not set", c.state, c.hasConn, none⟩) ∧
    (c.address ≠ none → c.port ≠ none → c.clientId ≠ none →
      c.state &&& STATE_NEEDS_INIT ≠ 0 →
      Client.connect c env = ⟨.returned false, c.state, c.hasConn, none⟩) ∧
    (c.address ≠ none → c.port ≠ none → c.clientId ≠ none →
      c.state &&& STATE_NEEDS_INIT = 0 → c.state &&& STATE_NOT_CONNECTED = 0 →
      Client.connect c env = ⟨.returned false, c.state, c.hasConn, none⟩) := by
  refine ⟨?_, ?_, ?_, ?_, ?_⟩
  · intro h
    simp [Client.connect, h]
  · intro h1 h2
    obtain ⟨a, ha⟩ := Option.ne_none_iff_exists'.mp h1
    simp [Client.connect, ha, h2]
  · intro h1 h2 h3
    obtain ⟨a, ha⟩ := Option.ne_none_iff_exists'.mp h1
    obtain ⟨p, hpp⟩ := Option.ne_none_iff_exists'.mp h2
    simp [Client.connect, ha, hpp, h3]
  · intro h1 h2 h3 h4
    obtain ⟨a, ha⟩ := Option.ne_none_iff_exists'.mp h1
    obtain ⟨p, hpp⟩ := Option.ne_none_iff_exists'.mp h2
    obtain ⟨cid, hcc⟩ := Option.ne_none_iff_exists'.mp h3
    simp [Client.connect, ha, hpp, hcc, h4]
  · intro h1 h2 h3 h4 h5
    obtain ⟨a, ha⟩ := Option.ne_none_iff_exists'.mp h1
    obtain ⟨p, hpp⟩ := Option.ne_none_iff_exists'.mp h2
    obtain ⟨cid, hcc⟩ := Option.ne_none_iff_exists'.mp h3
    simp [Client.connect, ha, hpp, hcc, h4, h5]

theorem C3_connect_preconditions_witness :
    Client.connect Client.init ⟨.ok, .ok, .ok, .ok⟩
      = ⟨.threw "Address not set", Client.init.state, Client.init.hasConn, none⟩ :=
  (C3_connect_preconditions Client.init ⟨.ok, .ok, .ok, .ok⟩).1 rfl

/-- C4: encoding fails with the header-overflow error exactly when the
UTF-8 encoded header JSON is longer than 64 bytes; a successful encode
always yields a padded header of exactly 64 bytes, and a header JSON of
at most 64 bytes (in particular exactly 64) always encodes. -/
theorem C4_header_budget (n : Nat) (subj : String) :
    (encodeHeader n subj = none ↔ HEADER_LEN_BYTES < utf8Len (headerJson n subj)) ∧
    (∀ hdr, encodeHeader n subj = some hdr → utf8Len hdr = HEADER_LEN_BYTES) ∧
    (utf8Len (headerJson n subj) = HEADER_LEN_BYTES → (encodeHeader n subj).isSome = true) := by
  refine ⟨?_, ?_, ?_⟩
  · unfold encodeHeader
    split_ifs with h
    · simp [h]
    · simp [h]
  · intro hdr h
    exact encodeHeader_padded n subj hdr h
  · intro h
    unfold encodeHeader
    rw [if_neg (by omega)]
    rfl

theorem C4_header_budget_witness :
    utf8Len ((encodeHeader 2 "s").getD []) = HEADER_LEN_BYTES ∧
    (encodeHeader 2 (String.mk (List.replicate 36 'a'))).isSome = true :=
  ⟨(C4_header_budget 2 "s").2.1 _ (by decide),
   (C4_header_budget 2 (String.mk (List.replicate 36 'a'))).2.2 (by decide)⟩

/-- C1: codec round trip — for every message whose encoded header fits
the 64-byte budget (encode succeeds), decoding the encoded frame (header
decode yielding length and subject, then body decode of a body with
exactly `length` bytes) returns a message with the same subject and the
same payload mapping. -/
theorem C1_codec_round_trip (m : Message) (hdr body : List Char)
    (h : encodeFrame m = some (hdr, body)) :
    decodeFrame hdr body = some m := by
  unfold encodeFrame at h
  cases heq : encodeHeader (utf8Len (Message.serialize m)) m.subject with
  | none => rw [heq] at h; exact absurd h (by simp)
  | some hdr2 =>
    rw [heq] at h
    simp only [Option.some.injEq, Prod.mk.injEq] at h
    obtain ⟨h1, h2⟩ := h
    subst h1
    subst h2
    have hd := decodeHeader_encodeHeader _ _ _ heq
    simp only [decodeFrame, hd]
    rw [if_pos trivial]
    exact deserialize_serialize m.subject m.payload

theorem C1_codec_round_trip_witness :
    encodeFrame sampleMsg = some (sampleHdr, sampleBody) ∧
    decodeFrame sampleHdr sampleBody = some sampleMsg :=
  ⟨by decide, C1_codec_round_trip sampleMsg sampleHdr sampleBody (by decide)⟩

/-- C8 counterexample: on a 64-byte block with a null byte before the
non-null content, the decode removes that interior null too and parses
successfully, while the decode described by the claim (strip only
trailing nulls, then parse) fails — so a null byte occurring before
non-null content IS removed, contradicting the claim. -/
theorem C8_counterexample :
    utf8Len cexHeaderBlock = HEADER_LEN_BYTES ∧
    decodeHeader cexHeaderBlock = some (JValue.int 0, JValue.str "a") ∧
    decodeHeaderSpec cexHeaderBlock = none := by
  decide

theorem removeNulls_noNull_pad (content : List Char) (k : Nat)
    (h : ∀ d ∈ content, d ≠ '\x00') :
    removeNulls (content ++ List.replicate k '\x00') = content := by
  rw [removeNulls, List.filter_append]
  have h1 : List.filter (fun c => c ≠ '\x00') content = content := by
    rw [List.filter_eq_self]
    intro a ha
    simp [h a ha]
  have h2 : List.filter (fun c => c ≠ '\x00') (List.replicate k '\x00') = [] := by
    rw [List.filter_replicate]
    simp
  rw [h1, h2, List.append_nil]

theorem removeTrailingNulls_pad (content : List Char) (k : Nat)
    (h : ∀ d ∈ content, d ≠ '\x00') :
    removeTrailingNulls (content ++ List.replicate k '\x00') = content := by
  unfold removeTrailingNulls
  rw [List.reverse_append, List.reverse_replicate]
  have hdrop : List.dropWhile (fun c => c = '\x00') (List.replicate k '\x00' ++ content.reverse)
      = List.dropWhile (fun c => c = '\x00') content.reverse := by
    induction k with
    | zero => simp
    | succ j ih =>
      rw [List.replicate_succ, List.cons_append, List.dropWhile_cons]
      rw [if_pos (by decide)]
      exact ih
  rw [hdrop]
  have hstop : List.dropWhile (fun c => c = '\x00') content.reverse = content.reverse := by
    cases hrev : content.reverse with
    | nil => simp
    | cons c cs =>
      have hc : c ∈ content := by
        have : c ∈ content.reverse := by rw [hrev]; exact List.mem_cons_self c cs
        simpa using this
      rw [List.dropWhile_cons]
      simp [h c hc]
  rw [hstop, List.reverse_reverse]

/-- C8 amended: the header decode removes every null byte of the 64-byte
block, wherever it occurs (not only the trailing padding), then parses
the remainder as JSON, failing with the malformed-header path on any
parse error.  On blocks that consist of null-free content followed by
trailing null padding it agrees with the strip-trailing-nulls decode the
claim describes. -/
theorem C8_header_decode (a b content : List Char) (k : Nat)
    (h : ∀ d ∈ content, d ≠ '\x00') :
    decodeHeader (a ++ '\x00' :: b) = decodeHeader (a ++ b) ∧
    decodeHeader (content ++ List.replicate k '\x00')
      = decodeHeaderSpec (content ++ List.replicate k '\x00') := by
  constructor
  · have hrm : removeNulls (a ++ '\x00' :: b) = removeNulls (a ++ b) := by
      simp [removeNulls, List.filter_append, List.filter_cons]
    unfold decodeHeader
    rw [hrm]
  · unfold decodeHeader decodeHeaderSpec
    rw [removeNulls_noNull_pad content k h, removeTrailingNulls_pad content k h]

theorem C8_header_decode_witness :
    decodeHeader (['a'] ++ '\x00' :: []) = decodeHeader (['a'] ++ []) ∧
    decodeHeader (headerJson 0 "a" ++ List.replicate 35 '\x00')
      = decodeHeaderSpec (headerJson 0 "a" ++ List.replicate 35 '\x00') :=
  C8_header_decode ['a'] [] (headerJson 0 "a") 35 (by decide)

theorem sendQueueTick_spec (st : SendState) :
    (st.queue = [] ∧ sendQueueTick st = (true, st)) ∨
    (∃ m rest o, st.queue = m :: rest ∧
      (sendQueueTick st = (false, ⟨m :: rest, o, st.wire⟩) ∨
       sendQueueTick st = (true, ⟨rest, o, st.wire⟩) ∨
       sendQueueTick st = (true, ⟨rest, o, st.wire ++ [m]⟩))) := by
  rcases st with ⟨q, orc, wire⟩
  cases q with
  | nil => exact Or.inl ⟨rfl, by simp [sendQueueTick]⟩
  | cons m rest =>
    apply Or.inr
    cases he : encodeHeader (utf8Len (Message.serialize m)) m.subject with
    | none =>
      exact ⟨m, rest, orc, rfl, Or.inr (Or.inl (by simp [sendQueueTick, he]))⟩
    | some hdr =>
      rcases h1 : sendLoop (utf8Len hdr) 0 orc with ⟨ok1, o1⟩
      cases ok1 with
      | false =>
        exact ⟨m, rest, o1, rfl, Or.inl (by simp [sendQueueTick, he, h1])⟩
      | true =>
        rcases h2 : sendLoop (utf8Len (Message.serialize m)) 0 o1 with ⟨ok2, o2⟩
        cases ok2 with
        | false =>
          exact ⟨m, rest, o2, rfl, Or.inl (by simp [sendQueueTick, he, h1, h2])⟩
        | true =>
          exact ⟨m, rest, o2, rfl, Or.inr (Or.inr (by simp [sendQueueTick, he, h1, h2]))⟩

/-- C6: FIFO outbound order.  A send step pops at most one message, from
the head of the queue; a step whose write returns zero bytes pushes the
popped message back to the head, leaving the queue (and the wire) exactly
as before; and over any run of send ticks the messages that reach the
wire are appended in order, with the emitted sequence followed by the
remaining queue a sublist of the starting queue — enqueue order is
preserved, never reordered or duplicated.  `send()` itself appends at
the tail, so enqueueing `m1, m2, m3` queues them in that order. -/
theorem C6_fifo_outbound (k : Nat) (st : SendState) :
    ((sendQueueTick st).1 = false →
      (sendQueueTick st).2.queue = st.queue ∧ (sendQueueTick st).2.wire = st.wire) ∧
    ((sendQueueTick st).2.queue = st.queue ∨ (sendQueueTick st).2.queue = st.queue.tail) ∧
    (∃ em : List Message, (runSendTicks k st).wire = st.wire ++ em ∧
      (em ++ (runSendTicks k st).queue).Sublist st.queue) ∧
    (∀ (st2 : SendState) (m1 m2 m3 : Message),
      (ConnectionHandler.send (ConnectionHandler.send (ConnectionHandler.send st2 m1) m2) m3).queue
        = st2.queue ++ [m1, m2, m3]) := by
  refine ⟨?_, ?_, ?_, ?_⟩
  · intro hf
    rcases sendQueueTick_spec st with ⟨hq, he⟩ | ⟨m, rest, o, hq, he | he | he⟩
    · rw [he] at hf; simp at hf
    · rw [he]; exact ⟨hq.symm ▸ rfl, rfl⟩
    · rw [he] at hf; simp at hf
    · rw [he] at hf; simp at hf
  · rcases sendQueueTick_spec st with ⟨hq, he⟩ | ⟨m, rest, o, hq, he | he | he⟩
    · rw [he]; exact Or.inl rfl
    · rw [he, hq]; exact Or.inl rfl
    · rw [he, hq]; exact Or.inr rfl
    · rw [he, hq]; exact Or.inr rfl
  · induction k generalizing st with
    | zero => exact ⟨[], by simp [runSendTicks], by simp [runSendTicks]⟩
    | succ j ih =>
      rcases sendQueueTick_spec st with ⟨hq, he⟩ | ⟨m, rest, o, hq, he | he | he⟩
      · rw [runSendTicks, he]
        exact ih st
      · rw [runSendTicks, he]
        refine ⟨[], by simp, ?_⟩
        rw [hq]
        simp
      · rw [runSendTicks, he]
        obtain ⟨em, hw, hs⟩ := ih ⟨rest, o, st.wire⟩
        exact ⟨em, hw, hq ▸ List.Sublist.cons m hs⟩
      · rw [runSendTicks, he]
        obtain ⟨em, hw, hs⟩ := ih ⟨rest, o, st.wire ++ [m]⟩
        refine ⟨m :: em, ?_, ?_⟩
        · rw [hw]
          simp
        · rw [hq, List.cons_append]
          exact List.Sublist.cons₂ m hs
  · intro st2 m1 m2 m3
    simp [ConnectionHandler.send]

theorem C6_fifo_outbound_witness :
    (sendQueueTick ⟨[sampleMsg], [], []⟩).2.queue = [sampleMsg] ∧
    (sendQueueTick ⟨[sampleMsg], [], []⟩).2.wire = [] :=
  (C6_fifo_outbound 1 ⟨[sampleMsg], [], []⟩).1 (by decide)

theorem updateEntry_keys (dir : List (JValue × SHandler)) (id : JValue) (f : SHandler → SHandler) :
    (updateEntry dir id f).map Prod.fst = dir.map Prod.fst := by
  rw [updateEntry, List.map_map]
  congr 1
  funext kv
  by_cases h : kv.1 = id <;> simp [h]

theorem lookupDir_updateEntry (dir : List (JValue × SHandler)) (id : JValue)
    (f : SHandler → SHandler) (h0 : SHandler) (h : lookupDir dir id = some h0) :
    lookupDir (updateEntry dir id f) id = some (f h0) := by
  induction dir with
  | nil => simp [lookupDir] at h
  | cons kv rest ih =>
    rcases kv with ⟨k, hh⟩
    by_cases hk : k = id
    · subst hk
      rw [lookupDir, if_pos rfl] at h
      injection h with h2
      subst h2
      rw [updateEntry, List.map_cons]
      show lookupDir ((if k = k then (k, f hh) else (k, hh))
        :: List.map (fun kv => if kv.1 = k then (kv.1, f kv.2) else kv) rest) k = some (f hh)
      rw [if_pos rfl, lookupDir, if_pos rfl]
    · rw [lookupDir, if_neg hk] at h
      have := ih h
      simp only [updateEntry, List.map_cons] at this ⊢
      rw [if_neg (by simpa using hk)]
      simpa [lookupDir, hk] using this

theorem lookupDir_none_iff (dir : List (JValue × SHandler)) (id : JValue) :
    lookupDir dir id = none ↔ id ∉ dir.map Prod.fst := by
  induction dir with
  | nil => simp [lookupDir]
  | cons kv rest ih =>
    rcases kv with ⟨k, hh⟩
    simp only [lookupDir, List.map_cons, List.mem_cons]
    by_cases hk : k = id
    · simp [hk]
    · simp only [if_neg hk, ih]
      constructor
      · intro hni hor
        rcases hor with e | e
        · exact hk e.symm
        · exact hni e
      · intro hni hmem
        exact hni (Or.inr hmem)

/-- C5 counterexample: when the directory entry for a reconnecting id
still has a running I/O loop (reachable: two clients sharing one id, or
a half-open drop where the server loop keeps polling recv timeouts
while the client reconnects), negotiation does not rebind the entry to
the new socket — the `sock` setter raises
`AttributeError("Cannot be running")`, which escapes
`__negotiate_client_id` (the accept loop catches only `socket.timeout`)
and the entry keeps its old socket with no loop restart — so the
claimed reopen-with-new-socket fails at this directory state. -/
theorem C5_counterexample :
    lookupDir runningDir (JValue.str "abc") = some runningHandler ∧
    runningHandler.running = true ∧
    runningHandler.reopenWith 7 = .exn "Cannot be running" ∧
    negotiateClientId runningDir (some (JValue.str "abc")) 7 2
      = .exn "Cannot be running" := by
  decide

/-- C5 amended: directory dedup on reconnect.  Negotiating a connection
whose id already has a directory entry with a stopped handler loop (the
normal reconnect case, the dropped connection having exited its loop)
keeps the key set (and its uniqueness) unchanged — exactly one entry
for that id — rebinds that same entry to the same handler (same
identity `hid`, same outbound queue) with the new socket swapped in and
its loop restarted, and stops the new handler; when the existing
entry still has a running handler, `reopen_with` raises
`AttributeError("Cannot be running")`, which escapes the negotiation,
and the directory is not rebound; a new id appends exactly one new
entry; a failed negotiation changes nothing; negotiation never removes
directory keys. -/
theorem C5_dedup_on_reconnect (dir : List (JValue × SHandler)) (id : JValue)
    (sock hid : Nat) (hnd : (dir.map Prod.fst).Nodup) :
    (∀ h0, lookupDir dir id = some h0 → h0.running = false →
      negotiateClientId dir (some id) sock hid
        = .ok (updateEntry dir id (fun _ => { h0 with sock := sock, running := true }), true) ∧
      (updateEntry dir id
        (fun _ => { h0 with sock := sock, running := true })).map Prod.fst = dir.map Prod.fst ∧
      lookupDir (updateEntry dir id (fun _ => { h0 with sock := sock, running := true })) id
        = some { h0 with sock := sock, running := true } ∧
      ((updateEntry dir id
        (fun _ => { h0 with sock := sock, running := true })).map Prod.fst).Nodup) ∧
    (∀ h0, lookupDir dir id = some h0 → h0.running = true →
      negotiateClientId dir (some id) sock hid = .exn "Cannot be running") ∧
    (lookupDir dir id = none →
      negotiateClientId dir (some id) sock hid
        = .ok (dir ++ [(id, ⟨hid, sock, [], true⟩)], false)) ∧
    (negotiateClientId dir none sock hid = .ok (dir, true)) ∧
    (∀ negId dir2 stopped, negotiateClientId dir negId sock hid = .ok (dir2, stopped) →
      ∀ k ∈ dir.map Prod.fst, k ∈ dir2.map Prod.fst) := by
  refine ⟨?_, ?_, ?_, rfl, ?_⟩
  · intro h0 hl hrun
    have hre : h0.reopenWith sock = .ok { h0 with sock := sock, running := true } := by
      rw [SHandler.reopenWith, hrun, if_neg (by simp)]
    have hok : negotiateClientId dir (some id) sock hid
        = .ok (updateEntry dir id (fun _ => { h0 with sock := sock, running := true }), true) := by
      simp only [negotiateClientId, hl, hre]
    refine ⟨hok, updateEntry_keys dir id _, ?_, ?_⟩
    · exact lookupDir_updateEntry dir id
        (fun _ => { h0 with sock := sock, running := true }) h0 hl
    · rw [updateEntry_keys dir id]
      exact hnd
  · intro h0 hl hrun
    have hre : h0.reopenWith sock = .exn "Cannot be running" := by
      rw [SHandler.reopenWith, hrun, if_pos rfl]
    simp only [negotiateClientId, hl, hre]
  · intro hl
    rw [negotiateClientId, hl]
  · intro negId dir2 stopped hok k hk
    cases negId with
    | none =>
      simp only [negotiateClientId] at hok
      injection hok with h2
      injection h2 with h3 h4
      rw [← h3]
      exact hk
    | some i =>
      cases hl : lookupDir dir i with
      | none =>
        simp only [negotiateClientId, hl] at hok
        injection hok with h2
        injection h2 with h3 h4
        rw [← h3]
        simp only [List.map_append, List.mem_append]
        exact Or.inl hk
      | some h0 =>
        cases hre : h0.reopenWith sock with
        | exn s =>
          simp only [negotiateClientId, hl, hre] at hok
          exact PyResult.noConfusion hok
        | ok h1 =>
          simp only [negotiateClientId, hl, hre] at hok
          injection hok with h2
          injection h2 with h3 h4
          rw [← h3, updateEntry_keys dir i]
          exact hk

theorem C5_dedup_on_reconnect_witness :
    negotiateClientId demoDir (some (JValue.str "abc")) 7 2
      = .ok (updateEntry demoDir (JValue.str "abc")
          (fun _ => { demoHandler with sock := 7, running := true }), true) ∧
    (updateEntry demoDir (JValue.str "abc")
      (fun _ => { demoHandler with sock := 7, running := true })).map Prod.fst
        = demoDir.map Prod.fst ∧
    lookupDir (updateEntry demoDir (JValue.str "abc")
      (fun _ => { demoHandler with sock := 7, running := true })) (JValue.str "abc")
        = some { demoHandler with sock := 7, running := true } ∧
    ((updateEntry demoDir (JValue.str "abc")
      (fun _ => { demoHandler with sock := 7, running := true })).map Prod.fst).Nodup :=
  (C5_dedup_on_reconnect demoDir (JValue.str "abc") 7 2 (by decide)).1 demoHandler
    (by decide) (by decide)

/-- C10: the server accepts a connection only when the first message
received within the negotiation deadline has subject exactly
`negotiation` and a payload whose `id` entry is present and truthy: no
first message, a different subject, a missing `id` key, or an
empty-string id all leave the negotiated id unset; a truthy id is
accepted as-is; and an unset id leaves the directory unchanged with the
handler stopped. -/
theorem C10_negotiation_gate (m : Message) (p : List (String × JValue)) (v : JValue)
    (dir : List (JValue × SHandler)) (sock hid : Nat) :
    negotiatedId none = none ∧
    (m.subject ≠ "negotiation" → negotiatedId (some m) = none) ∧
    (lookupLast "id" m.payload = none → negotiatedId (some m) = none) ∧
    (lookupLast "id" p = some (JValue.str "") →
      negotiatedId (some ⟨"negotiation", p⟩) = none) ∧
    (m.subject = "negotiation" → lookupLast "id" m.payload = some v → v.truthy = true →
      negotiatedId (some m) = some v) ∧
    negotiateClientId dir none sock hid = .ok (dir, true) := by
  refine ⟨rfl, ?_, ?_, ?_, ?_, rfl⟩
  · intro h
    simp [negotiatedId, h]
  · intro h
    unfold negotiatedId
    by_cases hs : m.subject = "negotiation"
    · simp [hs, h]
    · simp [hs]
  · intro h
    simp [negotiatedId, h, JValue.truthy]
  · intro h1 h2 h3
    simp [negotiatedId, h1, h2, h3]

theorem C10_negotiation_gate_witness :
    negotiatedId (some ⟨"negotiation", [("id", JValue.str "")]⟩) = none ∧
    negotiatedId (some ⟨"negotiation", [("id", JValue.str "abc")]⟩) = some (JValue.str "abc") ∧
    negotiateClientId demoDir none 3 4 = .ok (demoDir, true) :=
  ⟨(C10_negotiation_gate ⟨"negotiation", [("id", JValue.str "")]⟩ [("id", JValue.str "")]
      (JValue.str "") demoDir 3 4).2.2.2.1 (by decide),
   (C10_negotiation_gate ⟨"negotiation", [("id", JValue.str "abc")]⟩ [] (JValue.str "abc")
      demoDir 3 4).2.2.2.2.1 rfl (by decide) (by decide),
   (C10_negotiation_gate ⟨"negotiation", []⟩ [] (JValue.str "") demoDir 3 4).2.2.2.2.2⟩
